import Mathlib

/-!
Verification of the MPRIS media-controls subsystem of crystal-dock
(src/view/media_controls.cc, src/view/media_controls.h).

The embedding models the `MediaControls` class as a pure state-transition
system.  Identifier strings are represented as lists of characters; the
D-Bus session bus is modelled by an `Env` record of query functions
(`none` = invalid reply).  Each C++ member function that the claims touch
is translated into a Lean function of the same name over `MCState`.
-/

namespace CrystalDock

/-- Identifier / text strings, represented as character lists. -/
abbrev Str := List Char

/-- `MediaControls::PlaybackStatus` (media_controls.h lines 64-68). -/
inductive PlaybackStatus where
  | Playing
  | Paused
  | Stopped
deriving DecidableEq, Repr

/-- Metadata map contents used by the code: `xesam:title`, `xesam:artist`,
`xesam:album`, `mpris:length` (microseconds), `mpris:trackid`.  A missing
key yields the default QVariant value, which the caller encodes as
`[]` / `0` inside this record. -/
structure Metadata where
  title : Str
  artist : List Str
  album : Str
  lengthUs : Int
  trackid : Str
deriving DecidableEq

/-- The session-bus environment: registered service names plus per-service
query results.  `none` models an invalid `QDBusReply`; `validProps`
models `QDBusInterface::isValid()` of a freshly created short-lived
properties interface; `bindValid` models validity of the persistent
player interface created in `connectToPlayer`. -/
structure Env where
  busOk : Bool
  services : List Str
  validProps : Str → Bool
  probe : Str → Option Str
  metadata : Str → Option Metadata
  position : Str → Option Int
  bindValid : Str → Bool
  identity : Str → Option Str
  desktopEntry : Str → Option Str

/-- The mutable members of `MediaControls` that the claims are about
(media_controls.h lines 88-116): the cached state model, the two D-Bus
interface pointers (modelled as booleans: `true` = non-null), and the
discovered player list. -/
structure MCState where
  currentPlayer : Str
  currentTitle : Str
  currentArtist : Str
  currentAlbum : Str
  playbackStatus : PlaybackStatus
  positionMs : Int
  durationMs : Int
  hasPosition : Bool
  playerConnected : Bool
  propsConnected : Bool
  availablePlayers : List Str
deriving DecidableEq

/-- The constructor's initial field values (all empty / null). -/
def emptyState : MCState :=
  { currentPlayer := []
    currentTitle := []
    currentArtist := []
    currentAlbum := []
    playbackStatus := PlaybackStatus.Stopped
    positionMs := 0
    durationMs := 0
    hasPosition := false
    playerConnected := false
    propsConnected := false
    availablePlayers := [] }

/-- The observable state model (spec §3 StateModel): everything except the
interface pointers and the registry. -/
structure StateModel where
  currentPlayer : Str
  currentTitle : Str
  currentArtist : Str
  currentAlbum : Str
  playbackStatus : PlaybackStatus
  positionMs : Int
  durationMs : Int
  hasPosition : Bool
deriving DecidableEq

def stateModelOf (s : MCState) : StateModel :=
  { currentPlayer := s.currentPlayer
    currentTitle := s.currentTitle
    currentArtist := s.currentArtist
    currentAlbum := s.currentAlbum
    playbackStatus := s.playbackStatus
    positionMs := s.positionMs
    durationMs := s.durationMs
    hasPosition := s.hasPosition }

/-- The all-empty state-model invariant. -/
def emptyModel : StateModel :=
  { currentPlayer := []
    currentTitle := []
    currentArtist := []
    currentAlbum := []
    playbackStatus := PlaybackStatus.Stopped
    positionMs := 0
    durationMs := 0
    hasPosition := false }

/-- `QString::startsWith` on character lists. -/
def isPre : List Char → List Char → Bool
  | [], _ => true
  | _ :: _, [] => false
  | a :: as, b :: bs => a = b && isPre as bs

/-- The MPRIS namespace: `"org.mpris.MediaPlayer2."`. -/
def mprisNS : Str := "org.mpris.MediaPlayer2.".data

/-- `MediaControls::parsePlaybackStatus` (media_controls.cc lines 579-587). -/
def parsePlaybackStatus (status : Str) : PlaybackStatus :=
  if status = "Playing".data then PlaybackStatus.Playing
  else if status = "Paused".data then PlaybackStatus.Paused
  else PlaybackStatus.Stopped

/-- The short-lived status probe used by `connectToBestPlayer` and
`checkForBetterPlayer` (temporary properties interface + `Get
PlaybackStatus`); `none` when the interface is invalid or the reply
invalid. -/
def probeStatus (env : Env) (service : Str) : Option PlaybackStatus :=
  if env.validProps service then (env.probe service).map parsePlaybackStatus
  else none

/-- The service list produced by `updateAvailablePlayers`
(media_controls.cc lines 304-321): all registered names with the MPRIS
namespace as a proper initial segment; the empty list when the bus
interface or the enumeration reply is unavailable. -/
def scanPlayers (env : Env) : List Str :=
  if env.busOk then env.services.filter (fun s => isPre mprisNS s) else []

/-- `MediaControls::updateAvailablePlayers` effect on the modelled state
(the menu rebuild is presentation-only). -/
def updateAvailablePlayers (env : Env) (s : MCState) : MCState :=
  { s with availablePlayers := scanPlayers env }

/-- `MediaControls::disconnectFromPlayer` (media_controls.cc lines
469-498): null both interfaces and clear every state-model field. -/
def disconnectFromPlayer (s : MCState) : MCState :=
  { s with
    currentPlayer := []
    currentTitle := []
    currentArtist := []
    currentAlbum := []
    playbackStatus := PlaybackStatus.Stopped
    positionMs := 0
    durationMs := 0
    hasPosition := false
    playerConnected := false
    propsConnected := false }

/-- `", "`-join of the artist list (`QStringList::join(", ")`). -/
def joinComma (xs : List Str) : Str := List.intercalate ", ".data xs

/-- Status sub-query of `updatePlayerInfo` (media_controls.cc lines
505-511). -/
def pollStatus (env : Env) (s : MCState) : MCState :=
  match env.probe s.currentPlayer with
  | some r => { s with playbackStatus := parsePlaybackStatus r }
  | none => s

/-- Metadata sub-query of `updatePlayerInfo` (media_controls.cc lines
513-529): title, artist, album, duration (µs→ms by C++ truncating
division), and the derived has-position flag. -/
def pollMetadata (env : Env) (s : MCState) : MCState :=
  match env.metadata s.currentPlayer with
  | some m =>
    let dMs := Int.tdiv m.lengthUs 1000
    { s with
      currentTitle := m.title
      currentArtist := joinComma m.artist
      currentAlbum := m.album
      durationMs := dMs
      hasPosition := decide (0 < dMs) }
  | none => s

/-- Position sub-query of `updatePlayerInfo` (media_controls.cc lines
531-547), performed only when `hasPosition_` is set. -/
def pollPosition (env : Env) (s : MCState) : MCState :=
  if s.hasPosition then
    match env.position s.currentPlayer with
    | some pUs => { s with positionMs := Int.tdiv pUs 1000 }
    | none => s
  else s

/-- `MediaControls::updatePlayerInfo` (media_controls.cc lines 500-560):
guarded on both interfaces being non-null, then the three independent
best-effort sub-queries in order. -/
def updatePlayerInfo (env : Env) (s : MCState) : MCState :=
  if s.playerConnected && s.propsConnected then
    pollPosition env (pollMetadata env (pollStatus env s))
  else s

/-- `MediaControls::connectToPlayer` (media_controls.cc lines 435-467):
disconnect, bind both interfaces to `service`, roll back fully on an
invalid player interface, otherwise rescan players and poll once. -/
def connectToPlayer (env : Env) (service : Str) (s : MCState) : MCState :=
  let s1 := disconnectFromPlayer s
  let s2 := { s1 with
              currentPlayer := service
              playerConnected := true
              propsConnected := true }
  if env.bindValid service then
    updatePlayerInfo env (updateAvailablePlayers env s2)
  else
    disconnectFromPlayer s2

/-- The best-player scan loop of `connectToBestPlayer` (media_controls.cc
lines 351-388) with its `bestPlayer` / `bestStatus` accumulators. -/
def bestLoop (env : Env) : List Str → Str → PlaybackStatus → Option Str
  | [], bestPlayer, _ => if bestPlayer = [] then none else some bestPlayer
  | service :: rest, bestPlayer, bestStatus =>
    match probeStatus env service with
    | none => bestLoop env rest bestPlayer bestStatus
    | some st =>
      if st = PlaybackStatus.Playing then some service
      else if st = PlaybackStatus.Paused ∧ bestStatus = PlaybackStatus.Stopped then
        bestLoop env rest service st
      else if bestPlayer = [] then bestLoop env rest service st
      else bestLoop env rest bestPlayer bestStatus

/-- The service `connectToBestPlayer` decides to connect to (`none` when
it connects to nothing): empty list → nothing, singleton → that player
with no probe, otherwise the scan loop. -/
def selectBest (env : Env) : List Str → Option Str
  | [] => none
  | [service] => some service
  | a :: b :: rest => bestLoop env (a :: b :: rest) [] PlaybackStatus.Stopped

/-- `MediaControls::connectToBestPlayer` (media_controls.cc lines
339-394). -/
def connectToBestPlayer (env : Env) (s : MCState) : MCState :=
  match selectBest env s.availablePlayers with
  | some service => connectToPlayer env service s
  | none => s

/-- The takeover scan of `checkForBetterPlayer` (media_controls.cc lines
402-432): first non-active service probed `Playing`. -/
def checkTarget (env : Env) (cur : Str) : List Str → Option Str
  | [] => none
  | service :: rest =>
    if service = cur then checkTarget env cur rest
    else
      match probeStatus env service with
      | some PlaybackStatus.Playing => some service
      | _ => checkTarget env cur rest

/-- `MediaControls::checkForBetterPlayer` (media_controls.cc lines
396-433). -/
def checkForBetterPlayer (env : Env) (s : MCState) : MCState :=
  if s.playbackStatus = PlaybackStatus.Playing then s
  else
    match checkTarget env s.currentPlayer s.availablePlayers with
    | some service => connectToPlayer env service s
    | none => s

/-- `MediaControls::refreshMediaInfo` (media_controls.cc lines 178-189):
the periodic timer slot.  Returns immediately when no player interface is
bound; otherwise polls, then runs the takeover check only when more than
one player is known and the cached status is not `Playing`. -/
def refreshMediaInfo (env : Env) (s : MCState) : MCState :=
  if s.playerConnected then
    let s1 := updatePlayerInfo env s
    if 1 < s1.availablePlayers.length ∧ s1.playbackStatus ≠ PlaybackStatus.Playing then
      checkForBetterPlayer env s1
    else s1
  else s

/-- `MediaControls::onDBusServiceRegistered` (media_controls.cc lines
237-246). -/
def onDBusServiceRegistered (env : Env) (service : Str) (s : MCState) : MCState :=
  if isPre mprisNS service then
    let s1 := updateAvailablePlayers env s
    if s1.currentPlayer = [] ∧ s1.availablePlayers ≠ [] then connectToBestPlayer env s1
    else s1
  else s

/-- `MediaControls::onDBusServiceUnregistered` (media_controls.cc lines
248-260). -/
def onDBusServiceUnregistered (env : Env) (service : Str) (s : MCState) : MCState :=
  if isPre mprisNS service then
    let s2 :=
      if service = s.currentPlayer then
        let s1 := updateAvailablePlayers env (disconnectFromPlayer s)
        if s1.availablePlayers ≠ [] then connectToBestPlayer env s1 else s1
      else s
    updateAvailablePlayers env s2
  else s

/-- Microseconds computed by `onPositionSliderChanged` (media_controls.cc
line 223): `(value * durationMs_ * 1000) / 100` in `qint64` T-division. -/
def sliderPositionUs (value durationMs : Int) : Int :=
  Int.tdiv (value * durationMs * 1000) 100

/-- The millisecond argument `onPositionSliderChanged` passes to
`setPosition` (media_controls.cc line 224): `positionUs / 1000`. -/
def sliderTargetMs (value durationMs : Int) : Int :=
  Int.tdiv (sliderPositionUs value durationMs) 1000

/-- ms → µs conversion used by `setPosition` (media_controls.cc line 574). -/
def msToUs (ms : Int) : Int := ms * 1000

/-- µs → ms conversion used by `updatePlayerInfo` and
`onPositionSliderChanged` (media_controls.cc lines 525, 537, 224). -/
def usToMs (us : Int) : Int := Int.tdiv us 1000

/-- Observable effect of `MediaControls::setPosition` (media_controls.cc
lines 562-577).  Outer `none` models a null-pointer dereference: the
guard checks only `playerInterface_`, then the metadata query goes
through `propertiesInterface_` unconditionally.  `some none` = no wire
call (guard hit, or metadata reply invalid); `some (some (tid, us))` =
the `SetPosition` call with its arguments. -/
def setPositionEffect (env : Env) (s : MCState) (posMs : Int) :
    Option (Option (Str × Int)) :=
  if s.playerConnected = false then some none
  else if s.propsConnected = false then none
  else
    match env.metadata s.currentPlayer with
    | some m => some (some (m.trackid, msToUs posMs))
    | none => some none

/-- `QString(s).left(1).toUpper() + s.mid(1)` (media_controls.cc lines
614, 637, 641). -/
def capFirst : Str → Str
  | [] => []
  | c :: rest => c.toUpper :: rest

/-- `QString::remove(pat)` with a nonempty pattern: delete occurrences
left to right, resuming the search at the deletion point.  Structural on
a fuel argument (one unit per examined position suffices because each
step consumes at least one character). -/
def removeAllAux (pat : List Char) : Nat → List Char → List Char
  | _, [] => []
  | 0, s => s
  | fuel + 1, c :: rest =>
    if pat ≠ [] ∧ isPre pat (c :: rest) then
      removeAllAux pat fuel ((c :: rest).drop pat.length)
    else c :: removeAllAux pat fuel rest

def removeAll (pat s : List Char) : List Char := removeAllAux pat s.length s

/-- `QString::split(pat).first()`: the characters before the first
occurrence of `pat` (the whole string when there is none). -/
def splitFirst (pat : List Char) : List Char → List Char
  | [] => []
  | c :: rest => if isPre pat (c :: rest) then [] else c :: splitFirst pat rest

/-- `QString::contains(pat)`. -/
def containsSub (pat : List Char) : List Char → Bool
  | [] => decide (pat = [])
  | c :: rest => isPre pat (c :: rest) || containsSub pat rest

/-- The service-name parsing fallback of `getPlayerDisplayName`
(media_controls.cc lines 619-641). -/
def fallbackName (service : Str) : Str :=
  let displayName := removeAll mprisNS service
  if isPre "firefox.instance".data displayName then "Firefox".data
  else if isPre "chromium.instance".data displayName then "Chromium".data
  else if isPre "chrome.instance".data displayName then "Chrome".data
  else if isPre "spotify.instance".data displayName then "Spotify".data
  else if isPre "vlc.instance".data displayName then "VLC".data
  else if containsSub ".instance".data displayName then
    capFirst (splitFirst ".instance".data displayName)
  else capFirst displayName

/-- The desktop-entry step of `getPlayerDisplayName` (media_controls.cc
lines 606-616) followed by the parsing fallback. -/
def displayNameFromDesktop (env : Env) (service : Str) : Str :=
  match env.desktopEntry service with
  | some d => if d ≠ [] then capFirst d else fallbackName service
  | none => fallbackName service

/-- `MediaControls::getPlayerDisplayName` (media_controls.cc lines
589-642): identity property, then desktop entry with its first character
upper-cased, then the parsing fallback. -/
def getPlayerDisplayName (env : Env) (service : Str) : Str :=
  if env.validProps service then
    match env.identity service with
    | some idn => if idn ≠ [] then idn else displayNameFromDesktop env service
    | none => displayNameFromDesktop env service
  else fallbackName service

/-- The events that drive `MediaControls`: the periodic timer
(`refreshMediaInfo`), the two service-watcher notifications, a manual
player selection from the menu (index into the current list), and the
remaining UI commands (`onPlayPause` / `onPrevious` / `onNext` /
`onPositionSliderChanged`), which issue fire-and-forget calls without
mutating the modelled fields. -/
inductive MediaEvent where
  | tick
  | registered (service : Str)
  | unregistered (service : Str)
  | selectPlayer (i : Nat)
  | uiCommand

def stepEvent (env : Env) : MediaEvent → MCState → MCState
  | MediaEvent.tick, s => refreshMediaInfo env s
  | MediaEvent.registered service, s => onDBusServiceRegistered env service s
  | MediaEvent.unregistered service, s => onDBusServiceUnregistered env service s
  | MediaEvent.selectPlayer i, s =>
    match s.availablePlayers.get? i with
    | some service => connectToPlayer env service s
    | none => s
  | MediaEvent.uiCommand, s => s

/-- The state at the end of the constructor (media_controls.cc lines
36-74): initial scan, then connect to the best available player. -/
def initState (env : Env) : MCState :=
  let s1 := updateAvailablePlayers env emptyState
  if s1.availablePlayers ≠ [] then connectToBestPlayer env s1 else s1

/-- States the widget can actually be in: the constructor's result
followed by any sequence of events, each under an arbitrary bus
environment. -/
inductive Reachable : MCState → Prop where
  | init : ∀ env, Reachable (initState env)
  | step : ∀ env ev s, Reachable s → Reachable (stepEvent env ev s)

/-! ### Concrete environments and states used by witnesses and
counterexamples -/

/-- A bus where every query fails. -/
def envNone : Env :=
  { busOk := false
    services := []
    validProps := fun _ => false
    probe := fun _ => none
    metadata := fun _ => none
    position := fun _ => none
    bindValid := fun _ => false
    identity := fun _ => none
    desktopEntry := fun _ => none }

def svcA : Str := "org.mpris.MediaPlayer2.vlc".data
def svcB : Str := "org.mpris.MediaPlayer2.spotify".data
def svcC : Str := "org.mpris.MediaPlayer2.firefox.instance42".data

/-- A bus with one registered, connectable, playing player (`svcA`). -/
def envOne : Env :=
  { busOk := true
    services := [svcA]
    validProps := fun _ => true
    probe := fun _ => some "Playing".data
    metadata := fun _ => none
    position := fun _ => none
    bindValid := fun _ => true
    identity := fun _ => none
    desktopEntry := fun _ => none }

/-- A bus answering probes per service: `svcA` stopped, `svcB` playing,
`svcC` playing (the spec's three-session scenario). -/
def envABC : Env :=
  { busOk := true
    services := [svcA, svcB, svcC]
    validProps := fun _ => true
    probe := fun s =>
      if s = svcA then some "Stopped".data
      else if s = svcB then some "Playing".data
      else if s = svcC then some "Playing".data
      else none
    metadata := fun _ => none
    position := fun _ => none
    bindValid := fun _ => true
    identity := fun _ => none
    desktopEntry := fun _ => none }

/-- A bus where `svcA` is paused and `svcB` stopped (the spec's
two-session scenario). -/
def envPB : Env :=
  { busOk := true
    services := [svcA, svcB]
    validProps := fun _ => true
    probe := fun s =>
      if s = svcA then some "Paused".data
      else if s = svcB then some "Stopped".data
      else none
    metadata := fun _ => none
    position := fun _ => none
    bindValid := fun _ => true
    identity := fun _ => none
    desktopEntry := fun _ => none }

/-! ### Frame lemmas: which fields each poll sub-step leaves untouched -/

theorem pollStatus_frame (env : Env) (s : MCState) :
    (pollStatus env s).currentPlayer = s.currentPlayer ∧
    (pollStatus env s).currentTitle = s.currentTitle ∧
    (pollStatus env s).currentArtist = s.currentArtist ∧
    (pollStatus env s).currentAlbum = s.currentAlbum ∧
    (pollStatus env s).positionMs = s.positionMs ∧
    (pollStatus env s).durationMs = s.durationMs ∧
    (pollStatus env s).hasPosition = s.hasPosition ∧
    (pollStatus env s).playerConnected = s.playerConnected ∧
    (pollStatus env s).propsConnected = s.propsConnected ∧
    (pollStatus env s).availablePlayers = s.availablePlayers := by
  unfold pollStatus
  cases env.probe s.currentPlayer <;> simp

theorem pollMetadata_frame (env : Env) (s : MCState) :
    (pollMetadata env s).currentPlayer = s.currentPlayer ∧
    (pollMetadata env s).playbackStatus = s.playbackStatus ∧
    (pollMetadata env s).positionMs = s.positionMs ∧
    (pollMetadata env s).playerConnected = s.playerConnected ∧
    (pollMetadata env s).propsConnected = s.propsConnected ∧
    (pollMetadata env s).availablePlayers = s.availablePlayers := by
  unfold pollMetadata
  cases env.metadata s.currentPlayer <;> simp

theorem pollPosition_frame (env : Env) (s : MCState) :
    (pollPosition env s).currentPlayer = s.currentPlayer ∧
    (pollPosition env s).currentTitle = s.currentTitle ∧
    (pollPosition env s).currentArtist = s.currentArtist ∧
    (pollPosition env s).currentAlbum = s.currentAlbum ∧
    (pollPosition env s).playbackStatus = s.playbackStatus ∧
    (pollPosition env s).durationMs = s.durationMs ∧
    (pollPosition env s).hasPosition = s.hasPosition ∧
    (pollPosition env s).playerConnected = s.playerConnected ∧
    (pollPosition env s).propsConnected = s.propsConnected ∧
    (pollPosition env s).availablePlayers = s.availablePlayers := by
  unfold pollPosition
  by_cases h : s.hasPosition
  · simp only [h]
    cases env.position s.currentPlayer <;> simp [h]
  · simp [h]

theorem updatePlayerInfo_frame (env : Env) (s : MCState) :
    (updatePlayerInfo env s).currentPlayer = s.currentPlayer ∧
    (updatePlayerInfo env s).playerConnected = s.playerConnected ∧
    (updatePlayerInfo env s).propsConnected = s.propsConnected ∧
    (updatePlayerInfo env s).availablePlayers = s.availablePlayers := by
  unfold updatePlayerInfo
  by_cases h : s.playerConnected && s.propsConnected
  · simp only [h, if_true]
    have h1 := pollStatus_frame env s
    have h2 := pollMetadata_frame env (pollStatus env s)
    have h3 := pollPosition_frame env (pollMetadata env (pollStatus env s))
    refine ⟨?_, ?_, ?_, ?_⟩
    · rw [h3.1, h2.1, h1.1]
    · rw [h3.2.2.2.2.2.2.2.1, h2.2.2.2.1, h1.2.2.2.2.2.2.2.1]
    · rw [h3.2.2.2.2.2.2.2.2.1, h2.2.2.2.2.1, h1.2.2.2.2.2.2.2.2.1]
    · rw [h3.2.2.2.2.2.2.2.2.2, h2.2.2.2.2.2, h1.2.2.2.2.2.2.2.2.2]
  · simp [h]

/-- C5: `connectToPlayer` on a bind failure is exactly `disconnectFromPlayer`
(fully cleared, Disconnected); on success both interfaces are bound, the
session is active, and the result is one synchronous poll over the
freshly-bound base state. -/
theorem mediaC5 (env : Env) (service : Str) (s : MCState) :
    (env.bindValid service = false →
      connectToPlayer env service s = disconnectFromPlayer s ∧
      stateModelOf (connectToPlayer env service s) = emptyModel ∧
      (connectToPlayer env service s).playerConnected = false ∧
      (connectToPlayer env service s).propsConnected = false) ∧
    (env.bindValid service = true →
      (connectToPlayer env service s).playerConnected = true ∧
      (connectToPlayer env service s).propsConnected = true ∧
      (connectToPlayer env service s).currentPlayer = service ∧
      connectToPlayer env service s =
        updatePlayerInfo env
          { emptyState with
            currentPlayer := service
            playerConnected := true
            propsConnected := true
            availablePlayers := scanPlayers env }) := by
  constructor
  · intro h
    have he : connectToPlayer env service s = disconnectFromPlayer s := by
      unfold connectToPlayer
      simp only [h, Bool.false_eq_true, if_false]
      rfl
    exact ⟨he, by rw [he]; rfl, by rw [he]; rfl, by rw [he]; rfl⟩
  · intro h
    have he : connectToPlayer env service s =
        updatePlayerInfo env
          { emptyState with
            currentPlayer := service
            playerConnected := true
            propsConnected := true
            availablePlayers := scanPlayers env } := by
      unfold connectToPlayer
      simp only [h, if_true]
      rfl
    have hf := updatePlayerInfo_frame env
      { emptyState with
        currentPlayer := service
        playerConnected := true
        propsConnected := true
        availablePlayers := scanPlayers env }
    refine ⟨?_, ?_, ?_, he⟩
    · rw [he, hf.2.1]
    · rw [he, hf.2.2.1]
    · rw [he, hf.1]

/-- C5 witness: at `envNone` the bind fails and the controller is fully
cleared; at `envOne` the bind succeeds and the session becomes active. -/
theorem mediaC5_witness :
    connectToPlayer envNone svcA emptyState = disconnectFromPlayer emptyState ∧
    (connectToPlayer envOne svcA emptyState).playerConnected = true :=
  ⟨((mediaC5 envNone svcA emptyState).1 rfl).1,
   ((mediaC5 envOne svcA emptyState).2 rfl).1⟩

/-- C7: the percent-seek target in ms is exactly `floor(p * D / 100)`
(T-division coincides with floor division on the non-negative range),
ms→µs→ms conversion is lossless, µs→ms→µs truncation loses less than
1 ms and is idempotent (no error accumulation). -/
theorem mediaC7 (p D : Int) (hp0 : 0 ≤ p) (_hp1 : p ≤ 100) (hD : 0 ≤ D) :
    sliderTargetMs p D = Int.tdiv (p * D) 100 ∧
    Int.tdiv (p * D) 100 = Int.fdiv (p * D) 100 ∧
    (∀ ms : Int, usToMs (msToUs ms) = ms) ∧
    (∀ us : Int, 0 ≤ us →
      0 ≤ us - msToUs (usToMs us) ∧
      us - msToUs (usToMs us) < 1000 ∧
      usToMs (msToUs (usToMs us)) = usToMs us) := by
  have hpD : (0 : Int) ≤ p * D := Int.mul_nonneg hp0 hD
  refine ⟨?_, ?_, ?_, ?_⟩
  · unfold sliderTargetMs sliderPositionUs
    have h1 : p * D * 1000 = p * D * 10 * 100 := by ring
    rw [h1, Int.mul_tdiv_cancel _ (by decide)]
    rw [Int.tdiv_eq_ediv (by positivity) (by decide),
        Int.tdiv_eq_ediv hpD (by decide)]
    omega
  · exact (Int.fdiv_eq_tdiv hpD (by decide)).symm
  · intro ms
    unfold usToMs msToUs
    exact Int.mul_tdiv_cancel _ (by decide)
  · intro us hus
    unfold usToMs msToUs
    rw [Int.tdiv_eq_ediv hus (by decide),
        Int.mul_tdiv_cancel _ (by decide)]
    refine ⟨?_, ?_, rfl⟩ <;> omega

/-- C7 witness: p = 37 %, D = 100000 ms. -/
theorem mediaC7_witness : sliderTargetMs 37 100000 = Int.tdiv (37 * 100000) 100 :=
  (mediaC7 37 100000 (by decide) (by decide) (by decide)).1

/-- C8: `disconnectFromPlayer` always re-establishes the all-empty state
model, is idempotent, and `connect` immediately followed by `disconnect`
leaves the observable state model as if the connection never happened. -/
theorem mediaC8 (env : Env) (x : Str) (s : MCState) :
    stateModelOf (disconnectFromPlayer s) = emptyModel ∧
    disconnectFromPlayer (disconnectFromPlayer s) = disconnectFromPlayer s ∧
    (stateModelOf s = emptyModel →
      stateModelOf (disconnectFromPlayer (connectToPlayer env x s)) = stateModelOf s) := by
  refine ⟨rfl, rfl, fun h => ?_⟩
  exact h.symm

/-! ### Selection-policy lemmas for `connectToBestPlayer` -/

/-- With more than one candidate, `connectToBestPlayer` runs the probing
scan with empty accumulators. -/
theorem selectBest_of_multi (env : Env) (l : List Str) (hlen : 1 < l.length) :
    selectBest env l = bestLoop env l [] PlaybackStatus.Stopped := by
  match l with
  | [] => simp at hlen
  | [x] => simp at hlen
  | a :: b :: rest => rfl

/-- Scan step on a candidate whose probe failed. -/
theorem bestLoop_cons_none (env : Env) (x : Str) (l : List Str) (b : Str)
    (bs : PlaybackStatus) (h : probeStatus env x = none) :
    bestLoop env (x :: l) b bs = bestLoop env l b bs := by
  simp [bestLoop, h]

/-- Scan step on a candidate whose probe succeeded. -/
theorem bestLoop_cons_some (env : Env) (x : Str) (l : List Str) (b : Str)
    (bs st : PlaybackStatus) (h : probeStatus env x = some st) :
    bestLoop env (x :: l) b bs =
      (if st = PlaybackStatus.Playing then some x
       else if st = PlaybackStatus.Paused ∧ bs = PlaybackStatus.Stopped then
         bestLoop env l x st
       else if b = [] then bestLoop env l x st
       else bestLoop env l b bs) := by
  simp [bestLoop, h]

/-- A candidate probed `Playing` is returned the moment the scan reaches
it, whatever the accumulators and whatever comes after it. -/
theorem bestLoop_playing (env : Env) (svc : Str) (post : List Str)
    (hsvc : probeStatus env svc = some PlaybackStatus.Playing) :
    ∀ (pre : List Str), (∀ x ∈ pre, probeStatus env x ≠ some PlaybackStatus.Playing) →
      ∀ (b : Str) (bs : PlaybackStatus),
        bestLoop env (pre ++ svc :: post) b bs = some svc := by
  intro pre
  induction pre with
  | nil =>
    intro _ b bs
    rw [List.nil_append, bestLoop_cons_some env svc post b bs _ hsvc, if_pos rfl]
  | cons x xs ih =>
    intro hnp b bs
    have hx := hnp x (List.mem_cons_self x xs)
    have hxs : ∀ y ∈ xs, probeStatus env y ≠ some PlaybackStatus.Playing :=
      fun y hy => hnp y (List.mem_cons_of_mem x hy)
    rw [List.cons_append]
    cases hpx : probeStatus env x with
    | none => rw [bestLoop_cons_none env x _ b bs hpx]; exact ih hxs b bs
    | some st =>
      have hst : st ≠ PlaybackStatus.Playing := fun he => hx (by rw [hpx, he])
      rw [bestLoop_cons_some env x _ b bs st hpx, if_neg hst]
      by_cases h1 : st = PlaybackStatus.Paused ∧ bs = PlaybackStatus.Stopped
      · rw [if_pos h1]; exact ih hxs x st
      · rw [if_neg h1]
        by_cases h2 : b = []
        · rw [if_pos h2]; exact ih hxs x st
        · rw [if_neg h2]; exact ih hxs b bs

/-- Once the accumulator holds a `Paused` player, no `Playing`-free rest
of the scan can replace it. -/
theorem bestLoop_locked (env : Env) :
    ∀ (l : List Str) (b : Str),
      (∀ x ∈ l, probeStatus env x ≠ some PlaybackStatus.Playing) → b ≠ [] →
      bestLoop env l b PlaybackStatus.Paused = some b := by
  intro l
  induction l with
  | nil => intro b _ hb; simp [bestLoop, hb]
  | cons x xs ih =>
    intro b hnp hb
    have hx := hnp x (List.mem_cons_self x xs)
    have hxs : ∀ y ∈ xs, probeStatus env y ≠ some PlaybackStatus.Playing :=
      fun y hy => hnp y (List.mem_cons_of_mem x hy)
    cases hpx : probeStatus env x with
    | none => rw [bestLoop_cons_none env x _ b _ hpx]; exact ih b hxs hb
    | some st =>
      have hst : st ≠ PlaybackStatus.Playing := fun he => hx (by rw [hpx, he])
      rw [bestLoop_cons_some env x _ b _ st hpx, if_neg hst,
          if_neg (by rintro ⟨-, hc⟩; exact absurd hc (by decide)), if_neg hb]
      exact ih b hxs hb

/-- With a `Stopped` accumulator already holding a player, a
`Playing`-free scan returns the earliest `Paused` candidate, falling back
to the accumulator. -/
theorem bestLoop_stopped (env : Env) :
    ∀ (l : List Str) (b : Str),
      (∀ x ∈ l, probeStatus env x ≠ some PlaybackStatus.Playing) →
      (∀ x ∈ l, x ≠ []) → b ≠ [] →
      bestLoop env l b PlaybackStatus.Stopped =
        (match l.find? (fun x => decide (probeStatus env x = some PlaybackStatus.Paused)) with
         | some p => some p
         | none => some b) := by
  intro l
  induction l with
  | nil => intro b _ _ hb; simp [bestLoop, hb]
  | cons x xs ih =>
    intro b hnp hne hb
    have hx := hnp x (List.mem_cons_self x xs)
    have hxs : ∀ y ∈ xs, probeStatus env y ≠ some PlaybackStatus.Playing :=
      fun y hy => hnp y (List.mem_cons_of_mem x hy)
    have hnex : ∀ y ∈ xs, y ≠ [] := fun y hy => hne y (List.mem_cons_of_mem x hy)
    cases hpx : probeStatus env x with
    | none =>
      rw [bestLoop_cons_none env x _ b _ hpx,
          List.find?_cons_of_neg _ (by simp [hpx]), ih b hxs hnex hb]
    | some st =>
      cases st with
      | Playing => exact absurd hpx hx
      | Paused =>
        rw [bestLoop_cons_some env x _ b _ _ hpx,
            List.find?_cons_of_pos _ (by simp [hpx])]
        rw [if_neg (show PlaybackStatus.Paused ≠ PlaybackStatus.Playing by decide),
            if_pos (And.intro rfl rfl)]
        exact bestLoop_locked env xs x hxs (hne x (List.mem_cons_self x xs))
      | Stopped =>
        rw [bestLoop_cons_some env x _ b _ _ hpx,
            List.find?_cons_of_neg _ (by simp [hpx])]
        rw [if_neg (show PlaybackStatus.Stopped ≠ PlaybackStatus.Playing by decide),
            if_neg (by rintro ⟨hc, -⟩; exact absurd hc (by decide)), if_neg hb]
        exact ih b hxs hnex hb

/-- The full `Playing`-free scan from empty accumulators: earliest
`Paused` candidate, else earliest candidate whose probe succeeded. -/
theorem bestLoop_start (env : Env) :
    ∀ l : List Str,
      (∀ x ∈ l, probeStatus env x ≠ some PlaybackStatus.Playing) →
      (∀ x ∈ l, x ≠ []) →
      bestLoop env l [] PlaybackStatus.Stopped =
        (match l.find? (fun x => decide (probeStatus env x = some PlaybackStatus.Paused)) with
         | some p => some p
         | none => l.find? (fun x => (probeStatus env x).isSome)) := by
  intro l
  induction l with
  | nil => intro _ _; simp [bestLoop]
  | cons x xs ih =>
    intro hnp hne
    have hx := hnp x (List.mem_cons_self x xs)
    have hxs : ∀ y ∈ xs, probeStatus env y ≠ some PlaybackStatus.Playing :=
      fun y hy => hnp y (List.mem_cons_of_mem x hy)
    have hnex : ∀ y ∈ xs, y ≠ [] := fun y hy => hne y (List.mem_cons_of_mem x hy)
    cases hpx : probeStatus env x with
    | none =>
      rw [bestLoop_cons_none env x _ _ _ hpx,
          List.find?_cons_of_neg _ (by simp [hpx]),
          List.find?_cons_of_neg _ (by simp [hpx]), ih hxs hnex]
    | some st =>
      cases st with
      | Playing => exact absurd hpx hx
      | Paused =>
        rw [bestLoop_cons_some env x _ _ _ _ hpx,
            List.find?_cons_of_pos _ (by simp [hpx])]
        rw [if_neg (show PlaybackStatus.Paused ≠ PlaybackStatus.Playing by decide),
            if_pos (And.intro rfl rfl)]
        exact bestLoop_locked env xs x hxs (hne x (List.mem_cons_self x xs))
      | Stopped =>
        rw [bestLoop_cons_some env x _ _ _ _ hpx,
            List.find?_cons_of_neg _ (by simp [hpx]),
            List.find?_cons_of_pos _ (by simp [hpx])]
        rw [if_neg (show PlaybackStatus.Stopped ≠ PlaybackStatus.Playing by decide),
            if_neg (by rintro ⟨hc, -⟩; exact absurd hc (by decide)),
            if_pos rfl]
        exact bestLoop_stopped env xs x hxs hnex (hne x (List.mem_cons_self x xs))

/-- C1: with more than one candidate and an earliest candidate probed
`Playing` (after any block of non-`Playing` candidates), the scan selects
exactly that candidate, `connectToBestPlayer` connects to it, and — shown
by quantifying over a second environment that only has to agree on the
earlier candidates — nothing after it is ever probed or considered. -/
theorem mediaC1 (env env' : Env) (pre : List Str) (svc : Str) (post : List Str)
    (hlen : 1 < (pre ++ svc :: post).length)
    (hsvc : probeStatus env svc = some PlaybackStatus.Playing)
    (hpre : ∀ x ∈ pre, probeStatus env x ≠ some PlaybackStatus.Playing)
    (hagree : ∀ x ∈ pre, probeStatus env' x = probeStatus env x)
    (hsvc' : probeStatus env' svc = some PlaybackStatus.Playing) :
    selectBest env (pre ++ svc :: post) = some svc ∧
    selectBest env' (pre ++ svc :: post) = some svc ∧
    (∀ s : MCState, s.availablePlayers = pre ++ svc :: post →
      connectToBestPlayer env s = connectToPlayer env svc s) := by
  have hpre' : ∀ x ∈ pre, probeStatus env' x ≠ some PlaybackStatus.Playing :=
    fun x hx => by rw [hagree x hx]; exact hpre x hx
  have h1 : selectBest env (pre ++ svc :: post) = some svc := by
    rw [selectBest_of_multi env _ hlen]
    exact bestLoop_playing env svc post hsvc pre hpre [] PlaybackStatus.Stopped
  have h2 : selectBest env' (pre ++ svc :: post) = some svc := by
    rw [selectBest_of_multi env' _ hlen]
    exact bestLoop_playing env' svc post hsvc' pre hpre' [] PlaybackStatus.Stopped
  refine ⟨h1, h2, fun s hs => ?_⟩
  unfold connectToBestPlayer
  rw [hs, h1]

/-- C1 witness: the spec's scenario [A=Stopped, B=Playing, C=Playing]
selects B. -/
theorem mediaC1_witness : selectBest envABC [svcA, svcB, svcC] = some svcB :=
  (mediaC1 envABC envABC [svcA] svcB [svcC] (by decide) (by decide)
    (by decide) (fun x _ => rfl) (by decide)).1

/-- C2: with more than one candidate and none probed `Playing`, the scan
returns the earliest candidate probed `Paused` if one exists, otherwise
the earliest candidate whose probe succeeded (first-wins throughout); if
every probe fails, nothing is selected and `connectToBestPlayer` leaves
the state unchanged. -/
theorem mediaC2 (env : Env) (l : List Str) (hlen : 1 < l.length)
    (hne : ∀ x ∈ l, x ≠ [])
    (hnp : ∀ x ∈ l, probeStatus env x ≠ some PlaybackStatus.Playing) :
    selectBest env l =
      (match l.find? (fun x => decide (probeStatus env x = some PlaybackStatus.Paused)) with
       | some p => some p
       | none => l.find? (fun x => (probeStatus env x).isSome)) ∧
    ((∀ x ∈ l, probeStatus env x = none) →
      selectBest env l = none ∧
      ∀ s : MCState, s.availablePlayers = l → connectToBestPlayer env s = s) := by
  have hmain : selectBest env l =
      (match l.find? (fun x => decide (probeStatus env x = some PlaybackStatus.Paused)) with
       | some p => some p
       | none => l.find? (fun x => (probeStatus env x).isSome)) := by
    rw [selectBest_of_multi env l hlen]
    exact bestLoop_start env l hnp hne
  refine ⟨hmain, fun hall => ?_⟩
  have hfp : l.find? (fun x => decide (probeStatus env x = some PlaybackStatus.Paused)) = none := by
    rw [List.find?_eq_none]
    intro x hx
    simp [hall x hx]
  have hfs : l.find? (fun x => (probeStatus env x).isSome) = none := by
    rw [List.find?_eq_none]
    intro x hx
    simp [hall x hx]
  have hz : selectBest env l = none := by rw [hmain, hfp, hfs]
  refine ⟨hz, fun s hs => ?_⟩
  unfold connectToBestPlayer
  rw [hs, hz]

/-- C2 witness: the spec's scenario [A=Paused, B=Stopped] selects A. -/
theorem mediaC2_witness : selectBest envPB [svcA, svcB] = some svcA := by
  have h := (mediaC2 envPB [svcA, svcB] (by decide) (by decide) (by decide)).1
  rw [h]; decide

/-! ### Takeover-scan lemmas for `checkForBetterPlayer` -/

/-- Anything the takeover scan returns is a non-active member of the list
whose probe came back `Playing`. -/
theorem checkTarget_spec (env : Env) (cur : Str) :
    ∀ (l : List Str) (svc : Str), checkTarget env cur l = some svc →
      svc ≠ cur ∧ probeStatus env svc = some PlaybackStatus.Playing ∧ svc ∈ l := by
  intro l
  induction l with
  | nil => intro svc h; simp [checkTarget] at h
  | cons x xs ih =>
    intro svc h
    by_cases hx : x = cur
    · rw [show checkTarget env cur (x :: xs) = checkTarget env cur xs by
        simp [checkTarget, hx]] at h
      obtain ⟨a, b, c⟩ := ih svc h
      exact ⟨a, b, List.mem_cons_of_mem x c⟩
    · cases hpx : probeStatus env x with
      | none =>
        rw [show checkTarget env cur (x :: xs) = checkTarget env cur xs by
          simp [checkTarget, hx, hpx]] at h
        obtain ⟨a, b, c⟩ := ih svc h
        exact ⟨a, b, List.mem_cons_of_mem x c⟩
      | some st =>
        cases st with
        | Playing =>
          rw [show checkTarget env cur (x :: xs) = some x by
            simp [checkTarget, hx, hpx]] at h
          obtain rfl : x = svc := by simpa using h
          exact ⟨hx, hpx, List.mem_cons_self x xs⟩
        | Paused =>
          rw [show checkTarget env cur (x :: xs) = checkTarget env cur xs by
            simp [checkTarget, hx, hpx]] at h
          obtain ⟨a, b, c⟩ := ih svc h
          exact ⟨a, b, List.mem_cons_of_mem x c⟩
        | Stopped =>
          rw [show checkTarget env cur (x :: xs) = checkTarget env cur xs by
            simp [checkTarget, hx, hpx]] at h
          obtain ⟨a, b, c⟩ := ih svc h
          exact ⟨a, b, List.mem_cons_of_mem x c⟩

/-- If no non-active candidate probes `Playing`, the takeover scan finds
nothing. -/
theorem checkTarget_none (env : Env) (cur : Str) :
    ∀ l : List Str,
      (∀ svc ∈ l, svc ≠ cur → probeStatus env svc ≠ some PlaybackStatus.Playing) →
      checkTarget env cur l = none := by
  intro l
  induction l with
  | nil => intro _; rfl
  | cons x xs ih =>
    intro h
    have hxs : ∀ svc ∈ xs, svc ≠ cur → probeStatus env svc ≠ some PlaybackStatus.Playing :=
      fun svc hs => h svc (List.mem_cons_of_mem x hs)
    by_cases hx : x = cur
    · simp only [checkTarget, if_pos hx]
      exact ih hxs
    · have hnp := h x (List.mem_cons_self x xs) hx
      cases hpx : probeStatus env x with
      | none => simp only [checkTarget, if_neg hx, hpx]; exact ih hxs
      | some st =>
        cases st with
        | Playing => exact absurd hpx hnp
        | Paused => simp only [checkTarget, if_neg hx, hpx]; exact ih hxs
        | Stopped => simp only [checkTarget, if_neg hx, hpx]; exact ih hxs

/-- C3: the takeover check runs only when the cached status is not
`Playing` and more than one candidate is known (otherwise the timer tick
is just the poll); its scan skips the active session and yields only
peers probed `Playing`; finding one switches by a disconnect-then-connect
(`connectToPlayer` begins with `disconnectFromPlayer`); a `Paused` or
`Stopped` peer — indeed anything not probed `Playing` — never causes a
switch. -/
theorem mediaC3 (env : Env) (s : MCState) :
    (s.playerConnected = true →
      ((updatePlayerInfo env s).playbackStatus = PlaybackStatus.Playing ∨
        (updatePlayerInfo env s).availablePlayers.length ≤ 1) →
      refreshMediaInfo env s = updatePlayerInfo env s) ∧
    (∀ cur l svc, checkTarget env cur l = some svc →
      svc ≠ cur ∧ probeStatus env svc = some PlaybackStatus.Playing ∧ svc ∈ l) ∧
    (s.playbackStatus = PlaybackStatus.Playing → checkForBetterPlayer env s = s) ∧
    ((∀ svc ∈ s.availablePlayers, svc ≠ s.currentPlayer →
        probeStatus env svc ≠ some PlaybackStatus.Playing) →
      checkForBetterPlayer env s = s) ∧
    (∀ svc, s.playbackStatus ≠ PlaybackStatus.Playing →
      checkTarget env s.currentPlayer s.availablePlayers = some svc →
      checkForBetterPlayer env s = connectToPlayer env svc s) := by
  refine ⟨?_, checkTarget_spec env, ?_, ?_, ?_⟩
  · intro hconn hng
    have hneg : ¬(1 < (updatePlayerInfo env s).availablePlayers.length ∧
        (updatePlayerInfo env s).playbackStatus ≠ PlaybackStatus.Playing) := by
      rcases hng with h | h
      · exact fun hc => hc.2 h
      · exact fun hc => absurd hc.1 (by omega)
    unfold refreshMediaInfo
    simp only [hconn, if_true]
    rw [if_neg hneg]
  · intro h
    unfold checkForBetterPlayer
    rw [if_pos h]
  · intro h
    unfold checkForBetterPlayer
    by_cases hpl : s.playbackStatus = PlaybackStatus.Playing
    · rw [if_pos hpl]
    · rw [if_neg hpl, checkTarget_none env s.currentPlayer s.availablePlayers h]
  · intro svc hnp hct
    unfold checkForBetterPlayer
    rw [if_neg hnp, hct]

/-- C3 witness: with the cached state `Playing` the takeover check is a
no-op. -/
theorem mediaC3_witness :
    checkForBetterPlayer envNone
        { emptyState with playbackStatus := PlaybackStatus.Playing } =
      { emptyState with playbackStatus := PlaybackStatus.Playing } :=
  (mediaC3 envNone
    { emptyState with playbackStatus := PlaybackStatus.Playing }).2.2.1 rfl

/-! ### C4: what actually re-attempts a connection after a failure -/

/-- C4 counterexample: a Disconnected controller with a registered,
connectable, even `Playing` player (`envOne`).  The claim says the next
timer tick re-attempts connecting; in fact `refreshMediaInfo` returns
immediately (no player interface bound) and the state is bit-for-bit
unchanged — even though `connectToBestPlayer` would have succeeded from
this very state, as the last conjunct shows. -/
theorem mediaC4_cex :
    refreshMediaInfo envOne { emptyState with availablePlayers := [svcA] } =
      { emptyState with availablePlayers := [svcA] } ∧
    ({ emptyState with availablePlayers := [svcA] } : MCState).playerConnected = false ∧
    ({ emptyState with availablePlayers := [svcA] } : MCState).availablePlayers ≠ [] ∧
    (connectToBestPlayer envOne
      { emptyState with availablePlayers := [svcA] }).playerConnected = true := by
  refine ⟨rfl, rfl, by decide, by decide⟩

/-- C4 amended: failures are non-fatal and re-attempts do happen, but
only from the registration/unregistration notifications — a timer tick
while Disconnected is a strict no-op, so reconnection waits for the next
service notification rather than the next tick. -/
theorem mediaC4_amended (env : Env) (s : MCState) :
    (s.playerConnected = false → refreshMediaInfo env s = s) ∧
    (∀ service, isPre mprisNS service = true → s.currentPlayer = [] →
      scanPlayers env ≠ [] →
      onDBusServiceRegistered env service s =
        connectToBestPlayer env (updateAvailablePlayers env s)) ∧
    (∀ service, isPre mprisNS service = true → service = s.currentPlayer →
      scanPlayers env ≠ [] →
      onDBusServiceUnregistered env service s =
        updateAvailablePlayers env
          (connectToBestPlayer env
            (updateAvailablePlayers env (disconnectFromPlayer s)))) := by
  refine ⟨?_, ?_, ?_⟩
  · intro h
    unfold refreshMediaInfo
    simp [h]
  · intro service hns hcur hscan
    unfold onDBusServiceRegistered
    simp only [hns, if_true]
    rw [if_pos]
    constructor
    · exact hcur
    · exact hscan
  · intro service hns hcur hscan
    unfold onDBusServiceUnregistered
    simp only [hns, if_true, if_pos hcur]
    rw [if_pos]
    exact hscan

/-- C4 amended witness: a tick on the pristine disconnected state is a
no-op. -/
theorem mediaC4_witness : refreshMediaInfo envNone emptyState = emptyState :=
  (mediaC4_amended envNone emptyState).1 rfl

/-! ### C9: display-name resolution -/

theorem capFirst_ne_nil (l : Str) (h : l ≠ []) : capFirst l ≠ [] := by
  cases l with
  | nil => exact absurd rfl h
  | cons c rest => simp [capFirst]

theorem splitFirst_ne_nil (pat : List Char) (l : Str) (h : l ≠ [])
    (h2 : isPre pat l = false) : splitFirst pat l ≠ [] := by
  cases l with
  | nil => exact absurd rfl h
  | cons c rest => simp [splitFirst, h2]

/-- The parsing fallback is non-empty whenever the prefix-stripped
remainder is non-empty and does not itself start with `".instance"`. -/
theorem fallbackName_ne_nil (service : Str)
    (h1 : removeAll mprisNS service ≠ [])
    (h2 : isPre ".instance".data (removeAll mprisNS service) = false) :
    fallbackName service ≠ [] := by
  unfold fallbackName
  dsimp only
  split
  · decide
  split
  · decide
  split
  · decide
  split
  · decide
  split
  · decide
  split
  · exact capFirst_ne_nil _ (splitFirst_ne_nil _ _ h1 h2)
  · exact capFirst_ne_nil _ h1

/-- C9 counterexample: for the service name consisting of the bare
namespace prefix (matched by the `org.mpris.MediaPlayer2.*` watch
pattern) with every property query failing, display-name resolution
returns the empty string — the claim's "always returns a non-empty
string" is false. -/
theorem mediaC9_cex : getPlayerDisplayName envNone mprisNS = [] := by decide

/-- C9 amended: resolution is a total function (never raises) that falls
through identity → desktop-entry (first character upper-cased) → suffix
table → generic fallback, and the result is non-empty provided the
identifier stripped of all namespace-prefix occurrences is non-empty and
does not begin with `".instance"` (a successful non-empty property query
always yields a non-empty name). -/
theorem mediaC9_amended (env : Env) (service : Str) :
    (∀ idn, env.validProps service = true → env.identity service = some idn →
      idn ≠ [] → getPlayerDisplayName env service = idn) ∧
    (∀ d, env.validProps service = true →
      (env.identity service = none ∨ env.identity service = some []) →
      env.desktopEntry service = some d → d ≠ [] →
      getPlayerDisplayName env service = capFirst d) ∧
    (removeAll mprisNS service ≠ [] →
      isPre ".instance".data (removeAll mprisNS service) = false →
      getPlayerDisplayName env service ≠ []) := by
  refine ⟨?_, ?_, ?_⟩
  · intro idn hv hi hne
    unfold getPlayerDisplayName
    rw [hv, if_pos rfl, hi]
    simp [hne]
  · intro d hv hi hd hdne
    unfold getPlayerDisplayName displayNameFromDesktop
    rw [hv, if_pos rfl]
    rcases hi with hi | hi
    · rw [hi, hd]
      simp [hdne]
    · rw [hi, hd]
      simp [hdne]
  · intro h1 h2
    unfold getPlayerDisplayName displayNameFromDesktop
    split
    · split
      · split
        · assumption
        · split
          · split
            · exact capFirst_ne_nil _ (by assumption)
            · exact fallbackName_ne_nil service h1 h2
          · exact fallbackName_ne_nil service h1 h2
      · split
        · split
          · exact capFirst_ne_nil _ (by assumption)
          · exact fallbackName_ne_nil service h1 h2
        · exact fallbackName_ne_nil service h1 h2
    · exact fallbackName_ne_nil service h1 h2

/-- C9 amended witness: `org.mpris.MediaPlayer2.vlc` resolves to a
non-empty name even with every property query failing. -/
theorem mediaC9_witness : getPlayerDisplayName envNone svcA ≠ [] :=
  (mediaC9_amended envNone svcA).2.2 (by decide) (by decide)

/-! ### Poll sub-step case equations -/

theorem pollStatus_of_none (env : Env) (s : MCState)
    (h : env.probe s.currentPlayer = none) : pollStatus env s = s := by
  unfold pollStatus; rw [h]

theorem pollStatus_of_some (env : Env) (s : MCState) (r : Str)
    (h : env.probe s.currentPlayer = some r) :
    pollStatus env s = { s with playbackStatus := parsePlaybackStatus r } := by
  unfold pollStatus; rw [h]

theorem pollMetadata_of_none (env : Env) (s : MCState)
    (h : env.metadata s.currentPlayer = none) : pollMetadata env s = s := by
  unfold pollMetadata; rw [h]

theorem pollMetadata_of_some (env : Env) (s : MCState) (m : Metadata)
    (h : env.metadata s.currentPlayer = some m) :
    pollMetadata env s =
      { s with
        currentTitle := m.title
        currentArtist := joinComma m.artist
        currentAlbum := m.album
        durationMs := Int.tdiv m.lengthUs 1000
        hasPosition := decide (0 < Int.tdiv m.lengthUs 1000) } := by
  unfold pollMetadata; rw [h]

theorem pollPosition_of_nopos (env : Env) (s : MCState)
    (h : s.hasPosition = false) : pollPosition env s = s := by
  unfold pollPosition; simp [h]

theorem pollPosition_of_none (env : Env) (s : MCState)
    (h : s.hasPosition = true) (h2 : env.position s.currentPlayer = none) :
    pollPosition env s = s := by
  unfold pollPosition; simp [h, h2]

theorem pollPosition_of_some (env : Env) (s : MCState) (pUs : Int)
    (h : s.hasPosition = true) (h2 : env.position s.currentPlayer = some pUs) :
    pollPosition env s = { s with positionMs := Int.tdiv pUs 1000 } := by
  unfold pollPosition; simp [h, h2]

/-- C6: each of the three poll sub-queries is independently best-effort.
A failed status query leaves the cached status untouched, a failed
metadata query leaves all five metadata-derived fields untouched, a
failed (or skipped) position query leaves the position untouched — and
in each case the other sub-queries' updates still apply.  The embedding
is a total function, so the poll cannot throw. -/
theorem mediaC6 (env : Env) (s : MCState)
    (hp : s.playerConnected = true) (hq : s.propsConnected = true) :
    (env.probe s.currentPlayer = none →
      (updatePlayerInfo env s).playbackStatus = s.playbackStatus) ∧
    (∀ r, env.probe s.currentPlayer = some r →
      (updatePlayerInfo env s).playbackStatus = parsePlaybackStatus r) ∧
    (env.metadata s.currentPlayer = none →
      (updatePlayerInfo env s).currentTitle = s.currentTitle ∧
      (updatePlayerInfo env s).currentArtist = s.currentArtist ∧
      (updatePlayerInfo env s).currentAlbum = s.currentAlbum ∧
      (updatePlayerInfo env s).durationMs = s.durationMs ∧
      (updatePlayerInfo env s).hasPosition = s.hasPosition) ∧
    (∀ m, env.metadata s.currentPlayer = some m →
      (updatePlayerInfo env s).currentTitle = m.title ∧
      (updatePlayerInfo env s).currentArtist = joinComma m.artist ∧
      (updatePlayerInfo env s).currentAlbum = m.album ∧
      (updatePlayerInfo env s).durationMs = Int.tdiv m.lengthUs 1000 ∧
      (updatePlayerInfo env s).hasPosition = decide (0 < Int.tdiv m.lengthUs 1000)) ∧
    ((pollMetadata env (pollStatus env s)).hasPosition = false ∨
        env.position s.currentPlayer = none →
      (updatePlayerInfo env s).positionMs = s.positionMs) ∧
    (∀ pUs, (pollMetadata env (pollStatus env s)).hasPosition = true →
      env.position s.currentPlayer = some pUs →
      (updatePlayerInfo env s).positionMs = Int.tdiv pUs 1000) := by
  have key : updatePlayerInfo env s =
      pollPosition env (pollMetadata env (pollStatus env s)) := by
    unfold updatePlayerInfo; simp [hp, hq]
  have f1 := pollStatus_frame env s
  have f2 := pollMetadata_frame env (pollStatus env s)
  have f3 := pollPosition_frame env (pollMetadata env (pollStatus env s))
  have hcp2 : (pollMetadata env (pollStatus env s)).currentPlayer = s.currentPlayer := by
    rw [f2.1, f1.1]
  refine ⟨?_, ?_, ?_, ?_, ?_, ?_⟩
  · intro h
    rw [key, f3.2.2.2.2.1, f2.2.1, pollStatus_of_none env s h]
  · intro r h
    rw [key, f3.2.2.2.2.1, f2.2.1, pollStatus_of_some env s r h]
  · intro h
    have h1 : env.metadata (pollStatus env s).currentPlayer = none := by rw [f1.1]; exact h
    rw [key, pollMetadata_of_none env _ h1]
    have f3n := pollPosition_frame env (pollStatus env s)
    exact ⟨by rw [f3n.2.1, f1.2.1], by rw [f3n.2.2.1, f1.2.2.1],
           by rw [f3n.2.2.2.1, f1.2.2.2.1], by rw [f3n.2.2.2.2.2.1, f1.2.2.2.2.2.1],
           by rw [f3n.2.2.2.2.2.2.1, f1.2.2.2.2.2.2.1]⟩
  · intro m h
    have h1 : env.metadata (pollStatus env s).currentPlayer = some m := by rw [f1.1]; exact h
    have e2 := pollMetadata_of_some env (pollStatus env s) m h1
    rw [key, e2]
    have f3x := pollPosition_frame env
      { pollStatus env s with
        currentTitle := m.title
        currentArtist := joinComma m.artist
        currentAlbum := m.album
        durationMs := Int.tdiv m.lengthUs 1000
        hasPosition := decide (0 < Int.tdiv m.lengthUs 1000) }
    exact ⟨f3x.2.1, f3x.2.2.1, f3x.2.2.2.1, f3x.2.2.2.2.2.1, f3x.2.2.2.2.2.2.1⟩
  · intro h
    rcases h with h | h
    · rw [key, pollPosition_of_nopos env _ h, f2.2.2.1, f1.2.2.2.2.1]
    · have h1 : env.position (pollMetadata env (pollStatus env s)).currentPlayer = none := by
        rw [hcp2]; exact h
      rw [key]
      by_cases hh : (pollMetadata env (pollStatus env s)).hasPosition = true
      · rw [pollPosition_of_none env _ hh h1, f2.2.2.1, f1.2.2.2.2.1]
      · rw [pollPosition_of_nopos env _ (by simpa using hh), f2.2.2.1, f1.2.2.2.2.1]
  · intro pUs hh h
    have h1 : env.position (pollMetadata env (pollStatus env s)).currentPlayer = some pUs := by
      rw [hcp2]; exact h
    rw [key, pollPosition_of_some env _ pUs hh h1]

/-- C6 witness: while connected under a bus where every query fails, the
cached status is retained. -/
theorem mediaC6_witness :
    (updatePlayerInfo envNone
      { emptyState with playerConnected := true, propsConnected := true }).playbackStatus =
      ({ emptyState with playerConnected := true, propsConnected := true } :
        MCState).playbackStatus :=
  (mediaC6 envNone
    { emptyState with playerConnected := true, propsConnected := true } rfl rfl).1 rfl

/-- C8 witness: connect then disconnect from the pristine initial state. -/
theorem mediaC8_witness :
    stateModelOf (disconnectFromPlayer (connectToPlayer envOne svcA emptyState)) =
      stateModelOf emptyState :=
  (mediaC8 envOne svcA emptyState).2.2 rfl

/-! ### C10: the interface-pointer pairing invariant -/

/-- The implicit class invariant: the player and properties interfaces
are null together, they are null exactly when no player is active, and
every discovered player name carries the MPRIS namespace. -/
def Inv (s : MCState) : Prop :=
  s.playerConnected = s.propsConnected ∧
  (s.currentPlayer = [] ↔ s.playerConnected = false) ∧
  (∀ p ∈ s.availablePlayers, isPre mprisNS p = true)

theorem isPre_mprisNS_ne_nil (p : Str) (h : isPre mprisNS p = true) : p ≠ [] := by
  intro he
  subst he
  exact absurd h (by decide)

theorem scanPlayers_pre (env : Env) : ∀ p ∈ scanPlayers env, isPre mprisNS p = true := by
  intro p hp
  unfold scanPlayers at hp
  split at hp
  · exact (List.mem_filter.mp hp).2
  · simp at hp

/-- Whatever the scan returns came from the candidate list (the `[]`
accumulator can never be returned). -/
theorem bestLoop_mem (env : Env) :
    ∀ (l : List Str) (b : Str) (bs : PlaybackStatus) (svc : Str),
      bestLoop env l b bs = some svc → svc ∈ l ∨ (svc = b ∧ b ≠ []) := by
  intro l
  induction l with
  | nil =>
    intro b bs svc h
    by_cases hb : b = []
    · simp [bestLoop, hb] at h
    · simp only [bestLoop, if_neg hb, Option.some.injEq] at h
      exact Or.inr ⟨h.symm, hb⟩
  | cons x xs ih =>
    intro b bs svc h
    cases hpx : probeStatus env x with
    | none =>
      rw [bestLoop_cons_none env x xs b bs hpx] at h
      rcases ih b bs svc h with hm | hm
      · exact Or.inl (List.mem_cons_of_mem x hm)
      · exact Or.inr hm
    | some st =>
      rw [bestLoop_cons_some env x xs b bs st hpx] at h
      by_cases h1 : st = PlaybackStatus.Playing
      · rw [if_pos h1] at h
        obtain rfl : x = svc := by simpa using h
        exact Or.inl (List.mem_cons_self x xs)
      · rw [if_neg h1] at h
        by_cases h2 : st = PlaybackStatus.Paused ∧ bs = PlaybackStatus.Stopped
        · rw [if_pos h2] at h
          rcases ih x st svc h with hm | hm
          · exact Or.inl (List.mem_cons_of_mem x hm)
          · exact Or.inl (hm.1 ▸ List.mem_cons_self x xs)
        · rw [if_neg h2] at h
          by_cases h3 : b = []
          · rw [if_pos h3] at h
            rcases ih x st svc h with hm | hm
            · exact Or.inl (List.mem_cons_of_mem x hm)
            · exact Or.inl (hm.1 ▸ List.mem_cons_self x xs)
          · rw [if_neg h3] at h
            rcases ih b bs svc h with hm | hm
            · exact Or.inl (List.mem_cons_of_mem x hm)
            · exact Or.inr hm

theorem selectBest_mem (env : Env) (l : List Str) (svc : Str)
    (h : selectBest env l = some svc) : svc ∈ l := by
  match l with
  | [] => simp [selectBest] at h
  | [x] =>
    obtain rfl : x = svc := by simpa [selectBest] using h
    exact List.mem_cons_self x []
  | a :: b :: rest =>
    rcases bestLoop_mem env (a :: b :: rest) [] PlaybackStatus.Stopped svc h with hm | hm
    · exact hm
    · exact absurd rfl hm.2

theorem inv_disconnect (s : MCState)
    (h : ∀ p ∈ s.availablePlayers, isPre mprisNS p = true) :
    Inv (disconnectFromPlayer s) :=
  ⟨rfl, Iff.intro (fun _ => rfl) (fun _ => rfl), h⟩

theorem inv_updateAvail (env : Env) (s : MCState) (h : Inv s) :
    Inv (updateAvailablePlayers env s) :=
  ⟨h.1, h.2.1, fun p hp => scanPlayers_pre env p hp⟩

theorem inv_updatePlayerInfo (env : Env) (s : MCState) (h : Inv s) :
    Inv (updatePlayerInfo env s) := by
  have f := updatePlayerInfo_frame env s
  refine ⟨?_, ?_, ?_⟩
  · rw [f.2.1, f.2.2.1]; exact h.1
  · rw [f.1, f.2.1]; exact h.2.1
  · rw [f.2.2.2]; exact h.2.2

theorem inv_connectToPlayer (env : Env) (svc : Str) (s : MCState)
    (hsvc : svc ≠ []) (h : Inv s) : Inv (connectToPlayer env svc s) := by
  unfold connectToPlayer
  dsimp only
  split
  · apply inv_updatePlayerInfo
    apply inv_updateAvail
    exact ⟨rfl, Iff.intro (fun he => absurd he hsvc) (fun hf => Bool.noConfusion hf), h.2.2⟩
  · apply inv_disconnect
    exact h.2.2

theorem inv_connectToBestPlayer (env : Env) (s : MCState) (h : Inv s) :
    Inv (connectToBestPlayer env s) := by
  unfold connectToBestPlayer
  cases hsel : selectBest env s.availablePlayers with
  | none => exact h
  | some svc =>
    have hmem := selectBest_mem env s.availablePlayers svc hsel
    exact inv_connectToPlayer env svc s
      (isPre_mprisNS_ne_nil svc (h.2.2 svc hmem)) h

theorem inv_checkForBetterPlayer (env : Env) (s : MCState) (h : Inv s) :
    Inv (checkForBetterPlayer env s) := by
  unfold checkForBetterPlayer
  split
  · exact h
  · cases hct : checkTarget env s.currentPlayer s.availablePlayers with
    | none => exact h
    | some svc =>
      have hmem := (checkTarget_spec env s.currentPlayer s.availablePlayers svc hct).2.2
      exact inv_connectToPlayer env svc s
        (isPre_mprisNS_ne_nil svc (h.2.2 svc hmem)) h

theorem inv_refresh (env : Env) (s : MCState) (h : Inv s) :
    Inv (refreshMediaInfo env s) := by
  unfold refreshMediaInfo
  split
  · dsimp only
    split
    · exact inv_checkForBetterPlayer env _ (inv_updatePlayerInfo env s h)
    · exact inv_updatePlayerInfo env s h
  · exact h

theorem inv_registered (env : Env) (svc : Str) (s : MCState) (h : Inv s) :
    Inv (onDBusServiceRegistered env svc s) := by
  unfold onDBusServiceRegistered
  split
  · dsimp only
    split
    · exact inv_connectToBestPlayer env _ (inv_updateAvail env s h)
    · exact inv_updateAvail env s h
  · exact h

theorem inv_unregistered (env : Env) (svc : Str) (s : MCState) (h : Inv s) :
    Inv (onDBusServiceUnregistered env svc s) := by
  unfold onDBusServiceUnregistered
  split
  · dsimp only
    apply inv_updateAvail
    split
    · split
      · exact inv_connectToBestPlayer env _
          (inv_updateAvail env _ (inv_disconnect s h.2.2))
      · exact inv_updateAvail env _ (inv_disconnect s h.2.2)
    · exact h
  · exact h

theorem inv_empty : Inv emptyState :=
  ⟨rfl, Iff.intro (fun _ => rfl) (fun _ => rfl),
   fun p hp => absurd hp (List.not_mem_nil p)⟩

theorem inv_init (env : Env) : Inv (initState env) := by
  unfold initState
  dsimp only
  split
  · exact inv_connectToBestPlayer env _ (inv_updateAvail env _ inv_empty)
  · exact inv_updateAvail env _ inv_empty

theorem inv_step (env : Env) (ev : MediaEvent) (s : MCState) (h : Inv s) :
    Inv (stepEvent env ev s) := by
  cases ev with
  | tick => exact inv_refresh env s h
  | registered svc => exact inv_registered env svc s h
  | unregistered svc => exact inv_unregistered env svc s h
  | selectPlayer i =>
    have he : stepEvent env (MediaEvent.selectPlayer i) s =
        (match s.availablePlayers.get? i with
         | some svc => connectToPlayer env svc s
         | none => s) := rfl
    rw [he]
    cases hg : s.availablePlayers.get? i with
    | none => exact h
    | some svc =>
      have hmem : svc ∈ s.availablePlayers := List.get?_mem hg
      exact inv_connectToPlayer env svc s
        (isPre_mprisNS_ne_nil svc (h.2.2 svc hmem)) h
  | uiCommand => exact h

theorem reachable_inv (s : MCState) (h : Reachable s) : Inv s := by
  induction h with
  | init env => exact inv_init env
  | step env ev s' _ ih => exact inv_step env ev s' ih

/-- C10: in every reachable state the two interface handles are null
together, they are null exactly when the active-player identifier is
empty, and consequently `setPosition` — which guards only on the player
interface — never dereferences a null properties interface. -/
theorem mediaC10 (s : MCState) (h : Reachable s) :
    s.playerConnected = s.propsConnected ∧
    (s.currentPlayer = [] ↔ s.playerConnected = false) ∧
    (∀ (env : Env) (posMs : Int), setPositionEffect env s posMs ≠ none) := by
  have hi := reachable_inv s h
  refine ⟨hi.1, hi.2.1, ?_⟩
  intro env posMs
  cases hpc : s.playerConnected with
  | false =>
    unfold setPositionEffect
    rw [hpc]
    simp
  | true =>
    have hq : s.propsConnected = true := by rw [← hi.1, hpc]
    unfold setPositionEffect
    rw [hpc, hq]
    cases env.metadata s.currentPlayer <;> simp

/-- C10 witness: the constructor's state under an unreachable bus. -/
theorem mediaC10_witness :
    (initState envNone).playerConnected = (initState envNone).propsConnected :=
  (mediaC10 (initState envNone) (Reachable.init envNone)).1

end CrystalDock
